import Mathlib

/-!
Shallow embedding of the CRM mutation layer (`crm/schema.py`) of the
alx-backend-graphql_crm repository, together with theorems checking the
specification's claims about it.

Conventions of the embedding:
* The relational store is a `Store` record holding lists of customers,
  products and orders plus auto-increment primary-key counters.
* Python `None`-able values are `Option`s; Python f-string rendering of a
  possibly-`None` value is `pyStr`.
* `Decimal` prices and totals are modelled as `ℚ` (exact arithmetic).
* Fallible store writes (store-level faults) are modelled by an `Except`
  returning loop together with a fault budget; `transaction.atomic` is the
  `withTransaction` wrapper.
-/

namespace CRM

/-- A persisted customer row (`crm.models.Customer`): system-assigned id,
name, unique email, optional phone. The name is an `Option` because the
bulk mutation inserts whatever `data.get("name")` returned, `None` included. -/
structure Customer where
  id : Nat
  name : Option String
  email : String
  phone : Option String
  deriving Repr, DecidableEq

/-- A persisted product row (`crm.models.Product`). -/
structure Product where
  id : Nat
  name : String
  price : ℚ
  stock : Int
  deriving Repr, DecidableEq

/-- A persisted order row (`crm.models.Order`) with its many-to-many
product association (`order.products`) flattened to the list of product ids,
and `order_date` as an opaque optional timestamp. -/
structure Order where
  id : Nat
  customerId : Nat
  productIds : List Nat
  total_amount : ℚ
  order_date : Option Nat
  deriving Repr, DecidableEq

/-- The relational entity store backing the mutations: the three tables and
one auto-increment primary-key counter per table. -/
structure Store where
  customers : List Customer
  products : List Product
  orders : List Order
  nextCustomerId : Nat
  nextProductId : Nat
  nextOrderId : Nat
  deriving Repr, DecidableEq

/-- The empty store. -/
def initStore : Store := ⟨[], [], [], 0, 0, 0⟩

/-- Python f-string rendering of an optional string: `None` renders as
the text `"None"`, a string renders as itself. -/
def pyStr : Option String → String
  | none => "None"
  | some s => s

/-- Splitting a character list at every occurrence of the separator `c`
(the single-character case of Python's `str.split(sep)`): always yields at
least one group, and adjacent separators yield empty groups. -/
def splitOnChar (c : Char) : List Char → List (List Char)
  | [] => [[]]
  | x :: xs =>
    match splitOnChar c xs with
    | [] => [[]]
    | g :: gs => if x = c then [] :: g :: gs else (x :: g) :: gs

/-- Python `str.isdigit` on the character list of a string: true iff the
list is nonempty and every character is a digit. -/
def pyIsDigit (l : List Char) : Bool :=
  l ≠ [] && l.all Char.isDigit

/-- Modelled from the spec: Django's `validate_email` (library code, not
under `crm/`) — a syntactic `local@domain` check: exactly one `"@"`,
nonempty local part, and a domain made of at least two nonempty dot-separated
labels. Called with `None` (a record lacking the email field) it fails, as
Django's validator raises on a falsy value. -/
def validate_email : Option String → Bool
  | none => false
  | some e =>
    match splitOnChar '@' e.toList with
    | [l, d] =>
      l ≠ [] && (splitOnChar '.' d).length ≥ 2 && (splitOnChar '.' d).all (· ≠ [])
    | _ => false

/-- Python `str.startswith("+")` on the character list of a string. -/
def startsWithPlus : List Char → Bool
  | '+' :: _ => true
  | _ => false

/-- Phone acceptance shared by both customer mutations
(`schema.py` lines 52 and 93): the check is skipped when the phone is
absent or the empty string (Python falsiness); otherwise the phone must
start with `"+"` or consist of digits once hyphens are removed
(`phone.replace("-", "").isdigit()`). -/
def phone_ok : Option String → Bool
  | none => true
  | some p =>
    p.toList = [] || startsWithPlus p.toList ||
      pyIsDigit (p.toList.filter (fun ch => ch ≠ '-'))

/-- `Customer.objects.filter(email=email).exists()` with a possibly-`None`
filter value: some stored customer's email equals the given value. -/
def emailExists (s : Store) (email : Option String) : Bool :=
  s.customers.any (fun c => some c.email == email)

/-- `CreateCustomer.mutate` (`schema.py` lines 39–56): email-format check,
then email-uniqueness check, then phone-format check, first failure wins;
on success the customer is appended to the store. Returns the updated
store, the nullable customer payload, and the message. -/
def createCustomer (s : Store) (name email : String) (phone : Option String) :
    Store × Option Customer × String :=
  if validate_email (some email) = false then
    (s, none, "Invalid email format")
  else if emailExists s (some email) then
    (s, none, "Email already exists")
  else if phone_ok phone = false then
    (s, none, "Invalid phone format")
  else
    let c : Customer := ⟨s.nextCustomerId, some name, email, phone⟩
    ({ s with customers := s.customers ++ [c],
              nextCustomerId := s.nextCustomerId + 1 },
     some c, "Customer created successfully")

/-- One raw record of the `bulkCreateCustomers` input list: a loose map in
the source, so every field access `data.get(...)` may yield `None`. -/
structure RawRecord where
  name : Option String
  email : Option String
  phone : Option String
  deriving Repr, DecidableEq

/-- The `f"Row {idx+1}: ..."` prefix of every bulk error entry
(1-based row index from the 0-based loop index). -/
def rowMsg (idx : Nat) (m : String) : String :=
  "Row " ++ toString (idx + 1) ++ ": " ++ m

/-- The customer row inserted by
`Customer.objects.create(name=name, email=email, phone=phone)` for the raw
record `r` when the store is `s`: it gets the next auto-increment id. -/
def newCustomer (s : Store) (r : RawRecord) : Customer :=
  ⟨s.nextCustomerId, r.name, (r.email).getD "", r.phone⟩

/-- The store after that insert. -/
def insertCustomer (s : Store) (r : RawRecord) : Store :=
  { s with customers := s.customers ++ [newCustomer s r],
           nextCustomerId := s.nextCustomerId + 1 }

/-- The loop body of `BulkCreateCustomers.mutate` (`schema.py` lines
77–99), processing the records in input order starting at loop index
`idx`: a record failing validation contributes an error string and is
skipped; a record passing all checks is inserted immediately, so later
records see it in the uniqueness check. Returns the final store, the
created customers in processing order, and the error strings in
processing order. -/
def bulkLoop : Store → Nat → List RawRecord → Store × List Customer × List String
  | s, _, [] => (s, [], [])
  | s, idx, r :: rest =>
    if validate_email r.email = false then
      let res := bulkLoop s (idx + 1) rest
      (res.1, res.2.1, rowMsg idx ("Invalid email " ++ pyStr r.email) :: res.2.2)
    else if emailExists s r.email then
      let res := bulkLoop s (idx + 1) rest
      (res.1, res.2.1, rowMsg idx ("Email already exists (" ++ pyStr r.email ++ ")") :: res.2.2)
    else if phone_ok r.phone = false then
      let res := bulkLoop s (idx + 1) rest
      (res.1, res.2.1, rowMsg idx ("Invalid phone format (" ++ pyStr r.phone ++ ")") :: res.2.2)
    else
      let res := bulkLoop (insertCustomer s r) (idx + 1) rest
      (res.1, newCustomer s r :: res.2.1, res.2.2)

/-- `BulkCreateCustomers.mutate` (`schema.py` lines 72–101) in the
fault-free case: the transaction commits, returning the updated store and
the customers/errors payload. -/
def bulkCreateCustomers (s : Store) (input : List RawRecord) :
    Store × List Customer × List String :=
  bulkLoop s 0 input

/-- Modelled from the spec: Django's `transaction.atomic` context manager
(library code, not under `crm/`) — the body runs against the store; on
normal completion its writes commit, on an uncaught failure the whole
transaction rolls back, leaving the store as it was, and the call produces
no payload. -/
def withTransaction {α : Type} (s : Store)
    (body : Store → Except Unit (Store × α)) : Store × Option α :=
  match body s with
  | .ok (s', a) => (s', some a)
  | .error _ => (s, none)

/-- Modelled from the spec: the bulk loop of `schema.py` lines 77–99 run
against a store whose `create` can suffer a store-level fault. The fault
budget counts how many row inserts the store still accepts; a row insert
attempted with an exhausted budget raises an uncaught failure that aborts
the loop. Validation-only rows consume no budget. -/
def bulkLoopF : Store → Nat → Nat → List RawRecord →
    Except Unit (Store × List Customer × List String)
  | s, _, _, [] => .ok (s, [], [])
  | s, budget, idx, r :: rest =>
    if validate_email r.email = false then
      (bulkLoopF s budget (idx + 1) rest).map
        (fun x => (x.1, x.2.1, rowMsg idx ("Invalid email " ++ pyStr r.email) :: x.2.2))
    else if emailExists s r.email then
      (bulkLoopF s budget (idx + 1) rest).map
        (fun x => (x.1, x.2.1,
          rowMsg idx ("Email already exists (" ++ pyStr r.email ++ ")") :: x.2.2))
    else if phone_ok r.phone = false then
      (bulkLoopF s budget (idx + 1) rest).map
        (fun x => (x.1, x.2.1,
          rowMsg idx ("Invalid phone format (" ++ pyStr r.phone ++ ")") :: x.2.2))
    else
      match budget with
      | 0 => .error ()
      | b + 1 =>
        (bulkLoopF (insertCustomer s r) b (idx + 1) rest).map
          (fun x => (x.1, newCustomer s r :: x.2.1, x.2.2))

/-- `BulkCreateCustomers.mutate` with the faulty store: the whole loop runs
inside one `transaction.atomic` scope, so an uncaught store fault rolls the
call back. `none` payload means the call failed. -/
def bulkCreateCustomersF (s : Store) (budget : Nat) (input : List RawRecord) :
    Store × Option (List Customer × List String) :=
  withTransaction s (fun s0 => bulkLoopF s0 budget 0 input)

/-- `CreateProduct.mutate` (`schema.py` lines 117–124). -/
def createProduct (s : Store) (name : String) (price : ℚ) (stock : Int) :
    Store × Option Product × String :=
  if price ≤ 0 then
    (s, none, "Price must be positive")
  else if stock < 0 then
    (s, none, "Stock cannot be negative")
  else
    let p : Product := ⟨s.nextProductId, name, price, stock⟩
    ({ s with products := s.products ++ [p],
              nextProductId := s.nextProductId + 1 },
     some p, "Product created successfully")

/-- `Product.objects.filter(pk__in=product_ids)`: the stored products
whose id occurs in the requested list (each stored row at most once,
regardless of duplicates in the list). -/
def matchedProducts (s : Store) (product_ids : List Nat) : List Product :=
  s.products.filter (fun p => product_ids.contains p.id)

/-- The order row persisted by `Order.objects.create(...)` followed by
`order.products.set(products)`: total_amount is the sum of the matched
products' prices, and the association holds exactly the matched ids. -/
def mkOrder (s : Store) (customer_id : Nat) (product_ids : List Nat)
    (order_date : Option Nat) : Order :=
  ⟨s.nextOrderId, customer_id, (matchedProducts s product_ids).map (·.id),
   ((matchedProducts s product_ids).map (·.price)).sum, order_date⟩

/-- The store after that order insert. -/
def appendOrder (s : Store) (o : Order) : Store :=
  { s with orders := s.orders ++ [o], nextOrderId := s.nextOrderId + 1 }

/-- `CreateOrder.mutate` (`schema.py` lines 140–163): customer lookup,
product resolution, the two product-count guards, total computation as the
sum of the matched products' prices, then persistence of the order and its
product associations. -/
def createOrder (s : Store) (customer_id : Nat) (product_ids : List Nat)
    (order_date : Option Nat) : Store × Option Order × String :=
  match s.customers.find? (fun c => c.id == customer_id) with
  | none => (s, none, "Invalid customer ID " ++ toString customer_id)
  | some _ =>
    let products := matchedProducts s product_ids
    if products.isEmpty then
      (s, none, "No valid products found")
    else if products.length ≠ product_ids.length then
      (s, none, "Some product IDs are invalid")
    else
      (appendOrder s (mkOrder s customer_id product_ids order_date),
       some (mkOrder s customer_id product_ids order_date),
       "Order created successfully")

/-- One call to the mutation interface (`Mutation` object of `schema.py`
lines 166–170), with its arguments. -/
inductive Mut where
  | createCustomerM (name email : String) (phone : Option String)
  | bulkCreateCustomersM (input : List RawRecord)
  | createProductM (name : String) (price : ℚ) (stock : Int)
  | createOrderM (customer_id : Nat) (product_ids : List Nat) (order_date : Option Nat)
  deriving Repr

/-- The store transition of one mutation call. -/
def applyMut (s : Store) : Mut → Store
  | .createCustomerM n e p => (createCustomer s n e p).1
  | .bulkCreateCustomersM input => (bulkCreateCustomers s input).1
  | .createProductM n pr st => (createProduct s n pr st).1
  | .createOrderM c ps d => (createOrder s c ps d).1

/-- The store reached from the empty store by a sequence of mutation calls. -/
def applyMuts (ms : List Mut) : Store :=
  ms.foldl applyMut initStore

/-- The sum of the prices of the products an order references in store `s`. -/
def orderTotal (s : Store) (o : Order) : ℚ :=
  ((s.products.filter (fun p => o.productIds.contains p.id)).map (·.price)).sum

/-- The auto-increment/derived-field store invariant maintained by every
mutation: product ids are distinct and below the product id counter, order
associations reference only already-assigned product ids, and every stored
order's total_amount equals the sum of its referenced products' prices. -/
def StoreInv (s : Store) : Prop :=
  (s.products.map (·.id)).Nodup ∧
  (∀ p ∈ s.products, p.id < s.nextProductId) ∧
  (∀ o ∈ s.orders, ∀ i ∈ o.productIds, i < s.nextProductId) ∧
  (∀ o ∈ s.orders, o.total_amount = orderTotal s o)

/-- A store with one customer and one product, for concrete instances. -/
def storeP : Store := ⟨[⟨0, some "A", "a@x.com", none⟩], [⟨0, "L", 2, 1⟩], [], 1, 1, 0⟩

/-- A concrete mutation trace ending in a successful order creation. -/
def msP : List Mut :=
  [.createProductM "L" 2 1, .createCustomerM "A" "a@x.com" none, .createOrderM 0 [0] none]

/-- A store already holding the customer email `e@x.com`, used to
instantiate duplicate-email scenarios. -/
def storeE : Store := (createCustomer initStore "B" "e@x.com" none).1

/-- Unfolding lemma: the bulk loop on no records returns the store and two
empty lists. -/
theorem bulkLoop_nil (s : Store) (idx : Nat) : bulkLoop s idx [] = (s, [], []) := rfl

/-- Step lemma: a record with an invalid (or absent) email contributes only
its error entry; the store is untouched by it and processing continues. -/
theorem bulkLoop_cons_bademail (s : Store) (idx : Nat) (r : RawRecord)
    (rest : List RawRecord) (h1 : validate_email r.email = false) :
    bulkLoop s idx (r :: rest) =
      ((bulkLoop s (idx + 1) rest).1, (bulkLoop s (idx + 1) rest).2.1,
        rowMsg idx ("Invalid email " ++ pyStr r.email) ::
          (bulkLoop s (idx + 1) rest).2.2) := by
  simp [bulkLoop, h1]

/-- Step lemma: a record whose email duplicates a stored one contributes
only its error entry. -/
theorem bulkLoop_cons_dup (s : Store) (idx : Nat) (r : RawRecord)
    (rest : List RawRecord) (h1 : validate_email r.email = true)
    (h2 : emailExists s r.email = true) :
    bulkLoop s idx (r :: rest) =
      ((bulkLoop s (idx + 1) rest).1, (bulkLoop s (idx + 1) rest).2.1,
        rowMsg idx ("Email already exists (" ++ pyStr r.email ++ ")") ::
          (bulkLoop s (idx + 1) rest).2.2) := by
  simp [bulkLoop, h1, h2]

/-- Step lemma: a record with a fresh valid email but a bad phone
contributes only its error entry. -/
theorem bulkLoop_cons_badphone (s : Store) (idx : Nat) (r : RawRecord)
    (rest : List RawRecord) (h1 : validate_email r.email = true)
    (h2 : emailExists s r.email = false) (h3 : phone_ok r.phone = false) :
    bulkLoop s idx (r :: rest) =
      ((bulkLoop s (idx + 1) rest).1, (bulkLoop s (idx + 1) rest).2.1,
        rowMsg idx ("Invalid phone format (" ++ pyStr r.phone ++ ")") ::
          (bulkLoop s (idx + 1) rest).2.2) := by
  simp [bulkLoop, h1, h2, h3]

/-- Step lemma: a record passing all three checks is inserted immediately
and heads the created-customers list; later records run against the
updated store. -/
theorem bulkLoop_cons_ok (s : Store) (idx : Nat) (r : RawRecord)
    (rest : List RawRecord) (h1 : validate_email r.email = true)
    (h2 : emailExists s r.email = false) (h3 : phone_ok r.phone = true) :
    bulkLoop s idx (r :: rest) =
      ((bulkLoop (insertCustomer s r) (idx + 1) rest).1,
        newCustomer s r :: (bulkLoop (insertCustomer s r) (idx + 1) rest).2.1,
        (bulkLoop (insertCustomer s r) (idx + 1) rest).2.2) := by
  simp [bulkLoop, h1, h2, h3]

/-- Inserting a customer row extends the set of emails the uniqueness
check sees: this is the read-your-own-writes visibility inside the bulk
transaction. -/
theorem emailExists_insert (s : Store) (r : RawRecord) (e : Option String) :
    emailExists (insertCustomer s r) e =
      (emailExists s e || (some ((r.email).getD "") == e)) := by
  simp [emailExists, insertCustomer, newCustomer]

/-- C8: a `createOrder` call whose `customer_id` matches no stored customer
returns a null order with message `Invalid customer ID <id>` and leaves the
store (orders, associations, every entity) exactly as it was. -/
theorem createOrder_unknown_customer (s : Store) (cid : Nat) (pids : List Nat)
    (d : Option Nat) (h : ∀ c ∈ s.customers, c.id ≠ cid) :
    createOrder s cid pids d = (s, none, "Invalid customer ID " ++ toString cid) := by
  have hf : s.customers.find? (fun c => c.id == cid) = none := by
    rw [List.find?_eq_none]
    intro c hc
    simp [h c hc]
  simp [createOrder, hf]

/-- Witness for C8: the store holds one product and no customer `5`; the
call fails with `Invalid customer ID 5` and returns the store unchanged. -/
theorem createOrder_unknown_customer_witness :
    createOrder ⟨[], [⟨0, "L", 2, 1⟩], [], 0, 1, 0⟩ 5 [0] none =
      (⟨[], [⟨0, "L", 2, 1⟩], [], 0, 1, 0⟩, none, "Invalid customer ID 5") :=
  createOrder_unknown_customer _ 5 [0] none (by decide)

/-- C1: whenever the bulk-create call fails from an uncaught store-level
fault (payload `none`), the surrounding `transaction.atomic` scope rolls the
whole call back: the resulting store is exactly the pre-call store, even if
earlier records had validated and been inserted inside the transaction. -/
theorem bulk_fault_rolls_back (s : Store) (budget : Nat) (input : List RawRecord)
    (h : (bulkCreateCustomersF s budget input).2 = none) :
    (bulkCreateCustomersF s budget input).1 = s := by
  unfold bulkCreateCustomersF withTransaction at h ⊢
  cases hb : bulkLoopF s budget 0 input <;> simp [hb] at h ⊢

/-- Witness for C1: with a zero fault budget, inserting one valid record
faults; the call fails and the store is unchanged. -/
theorem bulk_fault_rolls_back_witness :
    (bulkCreateCustomersF initStore 0 [⟨some "A", some "e@x.com", none⟩]).2 = none ∧
    (bulkCreateCustomersF initStore 0 [⟨some "A", some "e@x.com", none⟩]).1 = initStore :=
  ⟨by decide, bulk_fault_rolls_back initStore 0 _ (by decide)⟩

/-- C9: a bulk record whose map lacks the email field (email `None`) is
handled by the ordinary email-format rejection: it contributes the error
entry `Row <i>: Invalid email None`, writes nothing, and processing
continues with the remaining records — the call is not aborted. -/
theorem bulk_missing_email_row (s : Store) (idx : Nat) (nm ph : Option String)
    (rest : List RawRecord) :
    bulkLoop s idx (⟨nm, none, ph⟩ :: rest) =
      ((bulkLoop s (idx + 1) rest).1, (bulkLoop s (idx + 1) rest).2.1,
        rowMsg idx "Invalid email None" :: (bulkLoop s (idx + 1) rest).2.2) := by
  simp [bulkLoop, validate_email, pyStr]

/-- C10: `createCustomer` never validates the name: for any name string,
the empty string included, a call with a fresh syntactically valid email
and an acceptable phone persists the customer with that name verbatim and
reports `Customer created successfully`. -/
theorem createCustomer_name_unvalidated (s : Store) (name email : String)
    (phone : Option String)
    (hemail : validate_email (some email) = true)
    (hfresh : emailExists s (some email) = false)
    (hphone : phone_ok phone = true) :
    createCustomer s name email phone =
      ({ s with customers := s.customers ++ [⟨s.nextCustomerId, some name, email, phone⟩],
                nextCustomerId := s.nextCustomerId + 1 },
       some ⟨s.nextCustomerId, some name, email, phone⟩,
       "Customer created successfully") := by
  simp [createCustomer, hemail, hfresh, hphone]

/-- Witness for C10: the empty name is accepted and stored verbatim. -/
theorem createCustomer_name_unvalidated_witness :
    createCustomer initStore "" "e@x.com" none =
      ({ initStore with customers := [⟨0, some "", "e@x.com", none⟩], nextCustomerId := 1 },
       some ⟨0, some "", "e@x.com", none⟩, "Customer created successfully") :=
  createCustomer_name_unvalidated initStore "" "e@x.com" none (by decide) (by decide)
    (by decide)

/-- C4: `createCustomer` reports exactly one validation failure, the first
failing check in the order email format, email uniqueness, phone format,
with messages `Invalid email format`, `Email already exists`,
`Invalid phone format`, a null customer, and the store unchanged on every
failure path. -/
theorem createCustomer_failure_order (s : Store) (name email : String)
    (phone : Option String) :
    (validate_email (some email) = false →
      createCustomer s name email phone = (s, none, "Invalid email format")) ∧
    (validate_email (some email) = true → emailExists s (some email) = true →
      createCustomer s name email phone = (s, none, "Email already exists")) ∧
    (validate_email (some email) = true → emailExists s (some email) = false →
      phone_ok phone = false →
      createCustomer s name email phone = (s, none, "Invalid phone format")) := by
  refine ⟨fun h1 => ?_, fun h1 h2 => ?_, fun h1 h2 h3 => ?_⟩ <;>
    simp [createCustomer, h1]
  · simp [h2]
  · simp [h2, h3]

/-- Witness for C4: each of the three failure paths at a concrete input. -/
theorem createCustomer_failure_order_witness :
    createCustomer initStore "A" "bad" none = (initStore, none, "Invalid email format") ∧
    createCustomer storeE "A" "e@x.com" none = (storeE, none, "Email already exists") ∧
    createCustomer initStore "A" "e@x.com" (some "abc") =
      (initStore, none, "Invalid phone format") :=
  ⟨(createCustomer_failure_order initStore "A" "bad" none).1 (by decide),
   (createCustomer_failure_order storeE "A" "e@x.com" none).2.1 (by decide) (by decide),
   (createCustomer_failure_order initStore "A" "e@x.com" (some "abc")).2.2 (by decide)
     (by decide) (by decide)⟩

end CRM

namespace CRM

/-- C6 refuted at a concrete input: a bulk record rejected for invalid
email format yields the entry `Row 1: Invalid email bademail`, which
contains no parenthesis at all, so the offending value is not enclosed in
parentheses as the claim requires for all three rejection reasons. -/
theorem bulk_error_shape_cex :
    (bulkCreateCustomers initStore [⟨some "A", some "bademail", none⟩]).2.2 =
      ["Row 1: Invalid email bademail"] ∧
    "Row 1: Invalid email bademail".toList.all (fun ch => ch ≠ '(') = true := by
  decide

/-- C6 as amended: every rejected bulk record produces exactly one error
entry; for the duplicate-email and invalid-phone reasons it has the shape
`Row <1-based index>: <reason> (<value>)` with the offending value in
parentheses, while the invalid-email reason produces
`Row <1-based index>: Invalid email <value>` without parentheses. -/
theorem bulk_error_shapes (s : Store) (idx : Nat) (r : RawRecord)
    (rest : List RawRecord) :
    (validate_email r.email = false →
      (bulkLoop s idx (r :: rest)).2.2 =
        rowMsg idx ("Invalid email " ++ pyStr r.email) ::
          (bulkLoop s (idx + 1) rest).2.2) ∧
    (validate_email r.email = true → emailExists s r.email = true →
      (bulkLoop s idx (r :: rest)).2.2 =
        rowMsg idx ("Email already exists (" ++ pyStr r.email ++ ")") ::
          (bulkLoop s (idx + 1) rest).2.2) ∧
    (validate_email r.email = true → emailExists s r.email = false →
      phone_ok r.phone = false →
      (bulkLoop s idx (r :: rest)).2.2 =
        rowMsg idx ("Invalid phone format (" ++ pyStr r.phone ++ ")") ::
          (bulkLoop s (idx + 1) rest).2.2) :=
  ⟨fun h1 => by rw [bulkLoop_cons_bademail s idx r rest h1],
   fun h1 h2 => by rw [bulkLoop_cons_dup s idx r rest h1 h2],
   fun h1 h2 h3 => by rw [bulkLoop_cons_badphone s idx r rest h1 h2 h3]⟩

/-- Witness for the amended C6: the three rejection reasons at concrete
inputs. -/
theorem bulk_error_shapes_witness :
    (bulkLoop initStore 0 [⟨some "A", some "bad", none⟩]).2.2 =
      ["Row 1: Invalid email bad"] ∧
    (bulkLoop storeE 0 [⟨some "A", some "e@x.com", none⟩]).2.2 =
      ["Row 1: Email already exists (e@x.com)"] ∧
    (bulkLoop initStore 0 [⟨some "A", some "e@x.com", some "abc"⟩]).2.2 =
      ["Row 1: Invalid phone format (abc)"] :=
  ⟨(bulk_error_shapes initStore 0 _ []).1 (by decide),
   (bulk_error_shapes storeE 0 _ []).2.1 (by decide) (by decide),
   (bulk_error_shapes initStore 0 _ []).2.2 (by decide) (by decide) (by decide)⟩

/-- C2: the bulk uniqueness check sees rows created earlier in the same
call: two records carrying the same fresh email make the first succeed and
the second fail with `Row 2: Email already exists (<email>)`. -/
theorem bulk_sequential_visibility (s : Store) (e : String) (n1 n2 p2 : Option String)
    (p1 : Option String)
    (hv : validate_email (some e) = true)
    (hfresh : emailExists s (some e) = false)
    (hp1 : phone_ok p1 = true) :
    bulkCreateCustomers s [⟨n1, some e, p1⟩, ⟨n2, some e, p2⟩] =
      (insertCustomer s ⟨n1, some e, p1⟩,
       [⟨s.nextCustomerId, n1, e, p1⟩],
       [rowMsg 1 ("Email already exists (" ++ e ++ ")")]) := by
  have h2 : emailExists (insertCustomer s ⟨n1, some e, p1⟩) (some e) = true := by
    simp [emailExists_insert]
  unfold bulkCreateCustomers
  rw [bulkLoop_cons_ok s 0 ⟨n1, some e, p1⟩ _ hv hfresh hp1,
      bulkLoop_cons_dup _ 1 ⟨n2, some e, p2⟩ [] hv h2, bulkLoop_nil]
  simp [newCustomer, pyStr]

/-- Witness for C2 at a concrete email. -/
theorem bulk_sequential_visibility_witness :
    bulkCreateCustomers initStore
        [⟨some "A", some "e@x.com", none⟩, ⟨some "B", some "e@x.com", none⟩] =
      (insertCustomer initStore ⟨some "A", some "e@x.com", none⟩,
       [⟨0, some "A", "e@x.com", none⟩],
       ["Row 2: Email already exists (e@x.com)"]) :=
  bulk_sequential_visibility initStore "e@x.com" (some "A") (some "B") none none
    (by decide) (by decide) (by decide)

/-- C7: records are processed in input order and a rejection affects no
other record: with three records of which only the second has a malformed
email, records 1 and 3 are created (a customers list of length 2, in
processing order) and the errors list is exactly
`[Row 2: Invalid email <email>]`. -/
theorem bulk_independent_rows (s : Store) (e1 e3 : String) (em2 : Option String)
    (n1 n2 n3 p2 : Option String) (p1 p3 : Option String)
    (hv1 : validate_email (some e1) = true)
    (hf1 : emailExists s (some e1) = false)
    (hp1 : phone_ok p1 = true)
    (hv2 : validate_email em2 = false)
    (hv3 : validate_email (some e3) = true)
    (hf3 : emailExists s (some e3) = false)
    (hne : e1 ≠ e3)
    (hp3 : phone_ok p3 = true) :
    bulkCreateCustomers s [⟨n1, some e1, p1⟩, ⟨n2, em2, p2⟩, ⟨n3, some e3, p3⟩] =
      (insertCustomer (insertCustomer s ⟨n1, some e1, p1⟩) ⟨n3, some e3, p3⟩,
       [⟨s.nextCustomerId, n1, e1, p1⟩, ⟨s.nextCustomerId + 1, n3, e3, p3⟩],
       [rowMsg 1 ("Invalid email " ++ pyStr em2)]) := by
  have hf3' : emailExists (insertCustomer s ⟨n1, some e1, p1⟩) (some e3) = false := by
    simp [emailExists_insert, hf3, hne]
  unfold bulkCreateCustomers
  rw [bulkLoop_cons_ok s 0 ⟨n1, some e1, p1⟩ _ hv1 hf1 hp1,
      bulkLoop_cons_bademail _ 1 ⟨n2, em2, p2⟩ _ hv2,
      bulkLoop_cons_ok _ 2 ⟨n3, some e3, p3⟩ _ hv3 hf3' hp3, bulkLoop_nil]
  simp [newCustomer, insertCustomer]

/-- Witness for C7 with concrete records. -/
theorem bulk_independent_rows_witness :
    bulkCreateCustomers initStore
        [⟨some "A", some "a@x.com", none⟩, ⟨some "B", some "bad", none⟩,
         ⟨some "C", some "c@x.com", none⟩] =
      (insertCustomer (insertCustomer initStore ⟨some "A", some "a@x.com", none⟩)
         ⟨some "C", some "c@x.com", none⟩,
       [⟨0, some "A", "a@x.com", none⟩, ⟨1, some "C", "c@x.com", none⟩],
       ["Row 2: Invalid email bad"]) :=
  bulk_independent_rows initStore "a@x.com" "c@x.com" (some "bad")
    (some "A") (some "B") (some "C") none none none
    (by decide) (by decide) (by decide) (by decide) (by decide) (by decide)
    (by decide) (by decide)

end CRM

namespace CRM

/-- C5: a `createOrder` call (for an existing customer) whose product id
list names only existing products but repeats some id matches strictly
fewer product rows than requested ids, so it fails with
`Some product IDs are invalid`, returns a null order and writes nothing:
the store is returned unchanged. -/
theorem createOrder_duplicate_ids (s : Store) (cid : Nat) (pids : List Nat)
    (d : Option Nat)
    (hnodup : (s.products.map (·.id)).Nodup)
    (hcust : ∃ c ∈ s.customers, c.id = cid)
    (hall : ∀ i ∈ pids, ∃ p ∈ s.products, p.id = i)
    (hdup : ¬ pids.Nodup) :
    createOrder s cid pids d = (s, none, "Some product IDs are invalid") := by
  obtain ⟨c0, hc0, hcid⟩ := hcust
  have hfs : (s.customers.find? (fun c => c.id == cid)).isSome := by
    rw [List.find?_isSome]
    exact ⟨c0, hc0, by simp [hcid]⟩
  obtain ⟨c1, hf⟩ := Option.isSome_iff_exists.mp hfs
  have hne : pids ≠ [] := by
    intro h
    exact hdup (h ▸ List.nodup_nil)
  have hmem0 : ∃ i, i ∈ pids := by
    cases pids with
    | nil => exact absurd rfl hne
    | cons a t => exact ⟨a, List.mem_cons_self a t⟩
  obtain ⟨i0, hi0⟩ := hmem0
  obtain ⟨p0, hp0, hp0id⟩ := hall i0 hi0
  have hp0m : p0 ∈ matchedProducts s pids := by
    rw [matchedProducts, List.mem_filter]
    exact ⟨hp0, by simp [hp0id, hi0]⟩
  have hnonempty : (matchedProducts s pids).isEmpty = false := by
    cases hM : matchedProducts s pids with
    | nil => rw [hM] at hp0m; exact absurd hp0m (List.not_mem_nil p0)
    | cons a t => rfl
  have hnd : ((matchedProducts s pids).map (·.id)).Nodup :=
    List.Nodup.sublist (List.Sublist.map _ (List.filter_sublist _)) hnodup
  have hsub : ((matchedProducts s pids).map (·.id)) ⊆ pids.dedup := by
    intro i hi
    rw [List.mem_dedup]
    obtain ⟨p, hp, hpi⟩ := List.mem_map.mp hi
    rw [matchedProducts, List.mem_filter] at hp
    have := hp.2
    simp only [List.elem_iff] at this
    exact hpi ▸ this
  have h1 : (matchedProducts s pids).length ≤ pids.dedup.length := by
    have := (List.Nodup.subperm hnd hsub).length_le
    simpa using this
  have h2 : pids.dedup.length < pids.length := by
    have hle := (List.dedup_sublist pids).length_le
    rcases Nat.lt_or_ge pids.dedup.length pids.length with h | h
    · exact h
    · have heq : pids.dedup.length = pids.length := Nat.le_antisymm hle h
      have := (List.dedup_sublist pids).eq_of_length heq
      exact absurd (this ▸ List.nodup_dedup pids) hdup
  have hlen : (matchedProducts s pids).length ≠ pids.length := by omega
  simp [createOrder, hf, hnonempty, hlen]

/-- Witness for C5: requesting the only product twice fails even though
the id is individually valid. -/
theorem createOrder_duplicate_ids_witness :
    createOrder ⟨[⟨0, some "A", "a@x.com", none⟩], [⟨0, "L", 2, 1⟩], [], 1, 1, 0⟩
        0 [0, 0] none =
      (⟨[⟨0, some "A", "a@x.com", none⟩], [⟨0, "L", 2, 1⟩], [], 1, 1, 0⟩,
       none, "Some product IDs are invalid") :=
  createOrder_duplicate_ids _ 0 [0, 0] none (by decide) (by decide) (by decide)
    (by decide)

/-- A store transition that leaves products, orders and the product id
counter untouched preserves the invariant. -/
theorem storeInv_of_frame (s t : Store)
    (hp : t.products = s.products) (ho : t.orders = s.orders)
    (hn : t.nextProductId = s.nextProductId) (h : StoreInv s) : StoreInv t := by
  obtain ⟨h1, h2, h3, h4⟩ := h
  refine ⟨hp ▸ h1, hp ▸ hn ▸ h2, ho ▸ hn ▸ h3, ?_⟩
  intro o hom
  rw [ho] at hom
  rw [orderTotal, hp]
  exact h4 o hom

/-- `createCustomer` never touches products, orders or the product id
counter. -/
theorem createCustomer_frame (s : Store) (n e : String) (ph : Option String) :
    (createCustomer s n e ph).1.products = s.products ∧
    (createCustomer s n e ph).1.orders = s.orders ∧
    (createCustomer s n e ph).1.nextProductId = s.nextProductId := by
  unfold createCustomer
  split
  · exact ⟨rfl, rfl, rfl⟩
  split
  · exact ⟨rfl, rfl, rfl⟩
  split
  · exact ⟨rfl, rfl, rfl⟩
  · exact ⟨rfl, rfl, rfl⟩

/-- The bulk loop never touches products, orders or the product id
counter. -/
theorem bulkLoop_frame : ∀ (input : List RawRecord) (s : Store) (idx : Nat),
    (bulkLoop s idx input).1.products = s.products ∧
    (bulkLoop s idx input).1.orders = s.orders ∧
    (bulkLoop s idx input).1.nextProductId = s.nextProductId
  | [], _, _ => ⟨rfl, rfl, rfl⟩
  | r :: rest, s, idx => by
    have ih1 := bulkLoop_frame rest s (idx + 1)
    have ih2 := bulkLoop_frame rest (insertCustomer s r) (idx + 1)
    unfold bulkLoop
    split
    · exact ih1
    split
    · exact ih1
    split
    · exact ih1
    · exact ih2

/-- With distinct product ids, re-filtering the table by the ids of an
earlier filter recovers exactly that filter: the association list stored on
an order resolves back to the products that priced it. -/
theorem filter_ids_roundtrip (l : List Product) (c : Product → Bool)
    (h : (l.map (·.id)).Nodup) :
    l.filter (fun p => ((l.filter c).map (·.id)).contains p.id) = l.filter c := by
  have hinj := List.inj_on_of_nodup_map h
  apply List.filter_congr
  intro p hp
  by_cases hc : c p = true
  · have hm : p ∈ l.filter c := List.mem_filter.mpr ⟨hp, hc⟩
    have hid : p.id ∈ (l.filter c).map (·.id) := List.mem_map.mpr ⟨p, hm, rfl⟩
    rw [hc]
    simpa [List.elem_iff] using hid
  · rw [Bool.eq_false_iff.mpr hc]
    rw [Bool.eq_false_iff]
    intro hcontains
    have hid : p.id ∈ (l.filter c).map (·.id) := by
      simpa [List.elem_iff] using hcontains
    obtain ⟨q, hq, hqid⟩ := List.mem_map.mp hid
    rw [List.mem_filter] at hq
    have : q = p := hinj hq.1 hp hqid
    exact hc (this ▸ hq.2)

/-- `createProduct` preserves the store invariant: the new row takes the
fresh id, and no existing order references it. -/
theorem storeInv_createProduct (s : Store) (n : String) (pr : ℚ) (st : Int)
    (h : StoreInv s) : StoreInv (createProduct s n pr st).1 := by
  obtain ⟨h1, h2, h3, h4⟩ := h
  by_cases hpr : pr ≤ 0
  · have hs : (createProduct s n pr st).1 = s := by simp [createProduct, hpr]
    rw [hs]; exact ⟨h1, h2, h3, h4⟩
  by_cases hst : st < 0
  · have hs : (createProduct s n pr st).1 = s := by simp [createProduct, hpr, hst]
    rw [hs]; exact ⟨h1, h2, h3, h4⟩
  have hs : (createProduct s n pr st).1 =
      { s with products := s.products ++ [⟨s.nextProductId, n, pr, st⟩],
               nextProductId := s.nextProductId + 1 } := by
    simp [createProduct, hpr, hst]
  rw [hs]
  refine ⟨?_, ?_, ?_, ?_⟩
  · show ((s.products ++ [Product.mk s.nextProductId n pr st]).map (·.id)).Nodup
    rw [List.map_append, List.nodup_append]
    refine ⟨h1, List.nodup_singleton _, ?_⟩
    intro a ha hb
    simp only [List.map_cons, List.map_nil, List.mem_singleton] at hb
    obtain ⟨p, hp, hpid⟩ := List.mem_map.mp ha
    have := h2 p hp
    omega
  · show ∀ p ∈ s.products ++ [Product.mk s.nextProductId n pr st], p.id < s.nextProductId + 1
    intro p hp
    rcases List.mem_append.mp hp with hp | hp
    · have := h2 p hp
      omega
    · rw [List.mem_singleton] at hp
      subst hp
      show s.nextProductId < s.nextProductId + 1
      omega
  · show ∀ o ∈ s.orders, ∀ i ∈ o.productIds, i < s.nextProductId + 1
    intro o ho i hi
    have := h3 o ho i hi
    omega
  · show ∀ o ∈ s.orders, o.total_amount =
      (((s.products ++ [Product.mk s.nextProductId n pr st]).filter
          (fun p => o.productIds.contains p.id)).map (·.price)).sum
    intro o ho
    have hcon : ([Product.mk s.nextProductId n pr st] : List Product).filter
        (fun p => o.productIds.contains p.id) = [] := by
      have hnp' : s.nextProductId ∉ o.productIds := by
        intro hmem
        have := h3 o ho s.nextProductId hmem
        omega
      have hnp : o.productIds.contains s.nextProductId = false := by
        rw [Bool.eq_false_iff]
        intro hcontains
        exact hnp' (by simpa [List.elem_iff] using hcontains)
      simp [List.filter_cons, hnp, hnp']
    rw [List.filter_append, hcon, List.append_nil]
    exact h4 o ho

/-- `createOrder` preserves the store invariant: the persisted order's
total is the price sum of exactly the products its association resolves
to. -/
theorem storeInv_createOrder (s : Store) (cid : Nat) (pids : List Nat)
    (d : Option Nat) (h : StoreInv s) : StoreInv (createOrder s cid pids d).1 := by
  obtain ⟨h1, h2, h3, h4⟩ := h
  cases hf : s.customers.find? (fun c => c.id == cid) with
  | none =>
    have hs : (createOrder s cid pids d).1 = s := by simp [createOrder, hf]
    rw [hs]; exact ⟨h1, h2, h3, h4⟩
  | some c =>
    by_cases hE : (matchedProducts s pids).isEmpty = true
    · have hs : (createOrder s cid pids d).1 = s := by simp [createOrder, hf, hE]
      rw [hs]; exact ⟨h1, h2, h3, h4⟩
    by_cases hL : (matchedProducts s pids).length = pids.length
    case neg =>
      have hs : (createOrder s cid pids d).1 = s := by simp [createOrder, hf, hE, hL]
      rw [hs]; exact ⟨h1, h2, h3, h4⟩
    have hs : (createOrder s cid pids d).1 = appendOrder s (mkOrder s cid pids d) := by
      simp [createOrder, hf, hE, hL]
    rw [hs]
    refine ⟨h1, h2, ?_, ?_⟩
    · show ∀ o ∈ s.orders ++ [mkOrder s cid pids d], ∀ i ∈ o.productIds, i < s.nextProductId
      intro o ho i hi
      rcases List.mem_append.mp ho with ho | ho
      · exact h3 o ho i hi
      · rw [List.mem_singleton] at ho
        subst ho
        obtain ⟨p, hp, hpid⟩ := List.mem_map.mp hi
        rw [matchedProducts, List.mem_filter] at hp
        exact hpid ▸ h2 p hp.1
    · show ∀ o ∈ s.orders ++ [mkOrder s cid pids d], o.total_amount =
        ((s.products.filter (fun p => o.productIds.contains p.id)).map (·.price)).sum
      intro o ho
      rcases List.mem_append.mp ho with ho | ho
      · exact h4 o ho
      · rw [List.mem_singleton] at ho
        subst ho
        show ((matchedProducts s pids).map (·.price)).sum =
          ((s.products.filter
              (fun p => ((matchedProducts s pids).map (·.id)).contains p.id)).map
            (·.price)).sum
        rw [matchedProducts, filter_ids_roundtrip s.products _ h1]

/-- Every mutation of the interface preserves the store invariant. -/
theorem storeInv_applyMut (s : Store) (m : Mut) (h : StoreInv s) :
    StoreInv (applyMut s m) := by
  cases m with
  | createCustomerM n e p =>
    have hf := createCustomer_frame s n e p
    exact storeInv_of_frame s _ hf.1 hf.2.1 hf.2.2 h
  | bulkCreateCustomersM input =>
    have hf := bulkLoop_frame input s 0
    exact storeInv_of_frame s _ hf.1 hf.2.1 hf.2.2 h
  | createProductM n pr st => exact storeInv_createProduct s n pr st h
  | createOrderM cid pids d => exact storeInv_createOrder s cid pids d h

/-- The invariant is preserved along any mutation trace. -/
theorem storeInv_foldl : ∀ (ms : List Mut) (s : Store), StoreInv s →
    StoreInv (ms.foldl applyMut s)
  | [], _, h => h
  | m :: rest, s, h => storeInv_foldl rest (applyMut s m) (storeInv_applyMut s m h)

/-- The empty store satisfies the invariant. -/
theorem storeInv_init : StoreInv initStore := by
  refine ⟨List.nodup_nil, ?_, ?_, ?_⟩ <;> intro x hx <;> exact absurd hx (List.not_mem_nil x)

/-- C3: a successful `createOrder` persists an order whose total_amount is
exactly the sum of the prices of the resolved products, and along every
mutation trace from the empty store, every stored order's total_amount
equals the price sum of the products it references. -/
theorem createOrder_total_is_price_sum :
    (∀ (s : Store) (cid : Nat) (pids : List Nat) (d : Option Nat) (o : Order),
      (createOrder s cid pids d).2.1 = some o →
      o.total_amount = ((matchedProducts s pids).map (·.price)).sum) ∧
    (∀ ms : List Mut, ∀ o ∈ (applyMuts ms).orders,
      o.total_amount = orderTotal (applyMuts ms) o) := by
  constructor
  · intro s cid pids d o h
    cases hf : s.customers.find? (fun c => c.id == cid) with
    | none => simp [createOrder, hf] at h
    | some c =>
      by_cases hE : (matchedProducts s pids).isEmpty = true
      · simp [createOrder, hf, hE] at h
      by_cases hL : (matchedProducts s pids).length = pids.length
      case neg => simp [createOrder, hf, hE, hL] at h
      have hsome : (createOrder s cid pids d).2.1 = some (mkOrder s cid pids d) := by
        simp [createOrder, hf, hE, hL]
      rw [hsome] at h
      rw [← Option.some_inj.mp h]
      rfl
  · intro ms o ho
    exact (storeInv_foldl ms initStore storeInv_init).2.2.2 o ho

/-- The success payload of `createOrder` on the concrete store `storeP`. -/
theorem createOrder_storeP :
    (createOrder storeP 0 [0] none).2.1 = some (Order.mk 0 0 [0] 2 none) := by
  norm_num [createOrder, storeP, matchedProducts, mkOrder, appendOrder]

/-- The order reached by the concrete trace `msP` sits in the final store. -/
theorem order_mem_msP : (Order.mk 0 0 [0] 2 none) ∈ (applyMuts msP).orders := by
  have hv : validate_email (some "a@x.com") = true := by decide
  have e1 : applyMut initStore (.createProductM "L" 2 1) =
      (⟨[], [⟨0, "L", 2, 1⟩], [], 0, 1, 0⟩ : Store) := by
    norm_num [applyMut, createProduct, initStore]
  have e2 : applyMut (⟨[], [⟨0, "L", 2, 1⟩], [], 0, 1, 0⟩ : Store)
      (.createCustomerM "A" "a@x.com" none) = storeP := by
    norm_num [applyMut, createCustomer, hv, emailExists, phone_ok, storeP]
  have e3 : applyMut storeP (.createOrderM 0 [0] none) =
      appendOrder storeP (mkOrder storeP 0 [0] none) := by
    norm_num [applyMut, createOrder, storeP, matchedProducts]
  have hOrd : mkOrder storeP 0 [0] none = Order.mk 0 0 [0] 2 none := by
    norm_num [mkOrder, matchedProducts, storeP]
  have hms : applyMuts msP = appendOrder storeP (mkOrder storeP 0 [0] none) := by
    show applyMut (applyMut (applyMut initStore (.createProductM "L" 2 1))
      (.createCustomerM "A" "a@x.com" none)) (.createOrderM 0 [0] none) =
      appendOrder storeP (mkOrder storeP 0 [0] none)
    rw [e1, e2, e3]
  rw [hms, hOrd]
  simp [appendOrder, storeP]


/-- Witness for C3: the concrete order of `storeP`/`msP` with total 2. -/
theorem createOrder_total_is_price_sum_witness :
    (Order.mk 0 0 [0] 2 none).total_amount =
      ((matchedProducts storeP [0]).map (·.price)).sum ∧
    (Order.mk 0 0 [0] 2 none).total_amount =
      orderTotal (applyMuts msP) (Order.mk 0 0 [0] 2 none) :=
  ⟨createOrder_total_is_price_sum.1 storeP 0 [0] none _ createOrder_storeP,
   createOrder_total_is_price_sum.2 msP _ order_mem_msP⟩

end CRM
